import Mathlib

/-!
Shallow embedding of the sharpEdge fair-odds engine.

Numeric values (Python floats) are modelled as exact rationals (ℚ); Python
exceptions are modelled with an explicit error type `PyErr` and results in
`Except PyErr α`.  Python dictionaries are modelled as association lists in
insertion order.  Each definition is translated from the named function of
the repository's source.
-/

deriving instance DecidableEq for Except

/-- Model of the Python exceptions raised by the engine. -/
inductive PyErr where
  | valueError (msg : String)
  | zeroDivisionError
  deriving DecidableEq, Repr

/-- Python division `a / b`: raises `ZeroDivisionError` when `b = 0`. -/
def pyDiv (a b : ℚ) : Except PyErr ℚ :=
  if b = 0 then .error .zeroDivisionError else .ok (a / b)

/-- Python `int()` applied to a rational value: truncation toward zero
(floor for non-negative values, ceiling for negative values). -/
def pyInt (q : ℚ) : ℤ :=
  if 0 ≤ q then ⌊q⌋ else ⌈q⌉

/-- Model of a Python list comprehension whose body may raise: elements are
produced left to right and the first raised exception propagates. -/
def exceptMap {α β : Type} (f : α → Except PyErr β) : List α → Except PyErr (List β)
  | [] => .ok []
  | a :: as => do
    let b ← f a
    let bs ← exceptMap f as
    pure (b :: bs)

namespace SharpEdge

/-- From `src/app/services/sharpedge_model.py`, `SharpEdge.decimal_to_american`
(the byte-identical function also appears as `PlayerPropsModel.decimal_to_american`
in `src/app/services/player_props_model.py`): converts decimal odds to an
American-format string.  Rejects inputs strictly below 1.0; for inputs ≥ 2.0
returns `"+" ++ str(int((d-1)*100))`; otherwise computes `int(-100 / (d-1))`,
where the division raises `ZeroDivisionError` at `d = 1`. -/
def decimal_to_american (decimal_odds : ℚ) : Except PyErr String :=
  if decimal_odds < 1 then
    .error (.valueError "Decimal odds must be 1.0 or greater")
  else if 2 ≤ decimal_odds then
    .ok ("+" ++ toString (pyInt ((decimal_odds - 1) * 100)))
  else do
    let v ← pyDiv (-100) (decimal_odds - 1)
    pure (toString (pyInt v))

/-- From `src/app/services/sharpedge_model.py`, `SharpEdge.devig_multiplicative`:
rejects inputs whose length is not 2, computes implied probabilities `1/odd`
(raising `ZeroDivisionError` on a zero odd), sums them into the overround and
divides each implied probability by the overround (raising
`ZeroDivisionError` when the overround is zero).  No bound on the magnitude
of the odds is checked. -/
def devig_multiplicative (odds : List ℚ) : Except PyErr (List ℚ) :=
  if odds.length ≠ 2 then
    .error (.valueError "Multiplicative devig requires exactly 2 odds (for a two-way market)")
  else do
    let implied_probs ← exceptMap (fun odd => pyDiv 1 odd) odds
    let overround := implied_probs.sum
    exceptMap (fun prob => pyDiv prob overround) implied_probs

/-- One entry of the `market_probs` list: `{'prob': ..., 'weight': ...}`. -/
structure MarketProb where
  prob : ℚ
  weight : ℚ
  deriving DecidableEq, Repr

/-- From `src/app/services/sharpedge_model.py`,
`SharpEdge.calculate_fair_probability`: rejects an empty list and a zero total
weight; otherwise returns the weighted average probability. -/
def calculate_fair_probability (market_probs : List MarketProb) : Except PyErr ℚ :=
  if market_probs = [] then
    .error (.valueError "market_probs cannot be empty")
  else
    let total_weight := (market_probs.map (fun book => book.weight)).sum
    if total_weight = 0 then
      .error (.valueError "Total weight cannot be zero")
    else
      let weighted_prob_sum := (market_probs.map (fun book => book.prob * book.weight)).sum
      .ok (weighted_prob_sum / total_weight)

/-- From `src/app/services/sharpedge_model.py`, `SharpEdge.calculate_ev`
(the identically-behaving `PlayerPropsModel.calculate_ev` appears in
`src/app/services/player_props_model.py`): rejects offered odds ≤ 1.0 and fair
probabilities outside the open interval (0,1); otherwise returns
`((fair_prob * (offered - 1)) - (1 - fair_prob)) * 100`. -/
def calculate_ev (offered_odds fair_prob : ℚ) : Except PyErr ℚ :=
  if offered_odds ≤ 1 then
    .error (.valueError "Offered odds must be greater than 1.0")
  else if ¬(0 < fair_prob ∧ fair_prob < 1) then
    .error (.valueError "Fair probability must be between 0.0 and 1.0")
  else
    .ok ((fair_prob * (offered_odds - 1) - (1 - fair_prob)) * 100)

/-- From `src/app/services/sharpedge_model.py`, `SharpEdge._classify_book_type`. -/
def classify_book_type (book_name : String) : String :=
  if ["Pinnacle", "Circa", "BetOnline", "BookMaker"].contains book_name then "sharp"
  else if ["FanDuel", "DraftKings", "Caesars", "BetMGM"].contains book_name then "recreational"
  else "hybrid"

/-- The comprehensive EV analysis record built by
`SharpEdge._calculate_comprehensive_ev`. -/
structure EvAnalysis where
  ev_percentage : ℚ
  ev_quality : String
  odds_edge_percentage : ℚ
  probability_edge : ℚ
  offered_odds : ℚ
  fair_odds : ℚ
  implied_prob_offered : ℚ
  fair_probability : ℚ
  deriving DecidableEq, Repr

/-- From `src/app/services/sharpedge_model.py`,
`SharpEdge._calculate_comprehensive_ev`. -/
def calculate_comprehensive_ev (offered_odds fair_prob fair_odds_decimal : ℚ) :
    Except PyErr EvAnalysis := do
  let ev_percentage ← calculate_ev offered_odds fair_prob
  let ratio ← pyDiv offered_odds fair_odds_decimal
  let odds_edge := (ratio - 1) * 100
  let implied ← pyDiv 1 offered_odds
  let prob_edge := fair_prob - implied
  let ev_quality :=
    if 3 ≤ ev_percentage then "excellent"
    else if 1.5 ≤ ev_percentage then "good"
    else if 0.5 ≤ ev_percentage then "marginal"
    else "poor"
  pure {
    ev_percentage := ev_percentage
    ev_quality := ev_quality
    odds_edge_percentage := odds_edge
    probability_edge := prob_edge
    offered_odds := offered_odds
    fair_odds := fair_odds_decimal
    implied_prob_offered := implied
    fair_probability := fair_prob }

/-- One entry of the `book_contributions` mapping (the union of the fields
recorded for sportsbooks and for exchanges; fields absent from one shape are
`none`). -/
structure BookContribution where
  probability : ℚ
  weight : ℚ
  original_odds : List ℚ
  devigged_odds : Option (List ℚ)
  liquidity : Option ℚ
  book_type : String
  deriving DecidableEq, Repr

/-- One exchange's entry in `exchange_data`: quoted odds plus liquidity. -/
structure ExchangeData where
  odds : List ℚ
  liquidity : ℚ
  deriving DecidableEq, Repr

/-- Configuration of a `SharpEdge` instance (`__init__`). -/
structure Config where
  weights : List (String × ℚ)
  exchange_weights : List (String × ℚ)
  liquidity_threshold : ℚ
  deriving DecidableEq, Repr

/-- One successfully processed contributor of `get_fair_odds_and_ev`:
its `market_probs` entry together with its `book_contributions` entry. -/
abbrev Contributor := MarketProb × (String × BookContribution)

/-- One iteration of the sportsbook loop of
`SharpEdge.get_fair_odds_and_ev`: books absent from the weight table are
skipped; a `ValueError`/`ZeroDivisionError` raised while devigging (or while
computing `1/devigged[i]`) is caught and the book is skipped. -/
def bookEntry (weights : List (String × ℚ)) (book : String) (odds : List ℚ) :
    Option Contributor :=
  match weights.lookup book with
  | none => none
  | some weight =>
    match (do
      let devigged ← devig_multiplicative odds
      let d0 := devigged.getD 0 0
      let d1 := devigged.getD 1 0
      let i0 ← pyDiv 1 d0
      let i1 ← pyDiv 1 d1
      pure (MarketProb.mk d0 weight,
        (book, BookContribution.mk d0 weight odds (some [i0, i1]) none
          (classify_book_type book))) : Except PyErr Contributor) with
    | .error _ => none
    | .ok c => some c

/-- The sportsbook loop of `SharpEdge.get_fair_odds_and_ev` in iteration
order. -/
def bookEntries (weights : List (String × ℚ)) (odds_data : List (String × List ℚ)) :
    List Contributor :=
  odds_data.filterMap (fun p => bookEntry weights p.1 p.2)

/-- One iteration of the exchange loop of `SharpEdge.get_fair_odds_and_ev`:
an exchange participates when it is in the exchange weight table and its
liquidity meets the threshold; devig failures are caught and skipped. -/
def exchangeEntry (exchange_weights : List (String × ℚ)) (threshold : ℚ)
    (exchange : String) (data : ExchangeData) : Option Contributor :=
  match exchange_weights.lookup exchange with
  | none => none
  | some weight =>
    if threshold ≤ data.liquidity then
      match devig_multiplicative data.odds with
      | .error _ => none
      | .ok devigged =>
        let d0 := devigged.getD 0 0
        some (MarketProb.mk d0 weight,
          (exchange, BookContribution.mk d0 weight data.odds none
            (some data.liquidity) "exchange"))
    else none

/-- The exchange loop of `SharpEdge.get_fair_odds_and_ev`; an absent
`exchange_data` argument (Python `None`, falsy) contributes nothing. -/
def exchangeEntries (exchange_weights : List (String × ℚ)) (threshold : ℚ)
    (exchange_data : Option (List (String × ExchangeData))) : List Contributor :=
  match exchange_data with
  | none => []
  | some ed => ed.filterMap (fun p => exchangeEntry exchange_weights threshold p.1 p.2)

/-- The result record of `SharpEdge.get_fair_odds_and_ev`. -/
structure ConsensusResult where
  fair_prob : ℚ
  fair_odds_decimal : ℚ
  fair_odds_american : String
  ev_analysis : Option EvAnalysis
  books_used : ℕ
  exchanges_used : ℕ
  book_contributions : List (String × BookContribution)
  deriving DecidableEq, Repr

/-- The `market_probs` list accumulated by `SharpEdge.get_fair_odds_and_ev`
after both loops: the contributors that survive filtering. -/
def consensusContributors (cfg : Config) (odds_data : List (String × List ℚ))
    (exchange_data : Option (List (String × ExchangeData))) : List MarketProb :=
  ((bookEntries cfg.weights odds_data ++
    exchangeEntries cfg.exchange_weights cfg.liquidity_threshold exchange_data).map
      (fun c => c.1))

/-- The `if offered_odds:` step of `SharpEdge.get_fair_odds_and_ev`: a truthy
offered price yields a comprehensive EV analysis (whose failures propagate),
a falsy one yields no analysis. -/
def evAnalysisOpt (offered_odds : Option ℚ) (fair_prob fair_odds_decimal : ℚ) :
    Except PyErr (Option EvAnalysis) :=
  match offered_odds with
  | some o =>
    if o ≠ 0 then do
      let ev ← calculate_comprehensive_ev o fair_prob fair_odds_decimal
      pure (some ev)
    else pure (none : Option EvAnalysis)
  | none => pure (none : Option EvAnalysis)

/-- Tail of `SharpEdge.get_fair_odds_and_ev` after the two loops, operating on
the collected contributor lists. -/
def consensusFrom (be ee : List Contributor) (offered_odds : Option ℚ) :
    Except PyErr ConsensusResult :=
  let market_probs := (be ++ ee).map (fun c => c.1)
  if market_probs = [] then
    .error (.valueError "No valid odds data found")
  else do
    let fair_prob ← calculate_fair_probability market_probs
    let fair_odds_decimal ← pyDiv 1 fair_prob
    let fair_odds_american ← decimal_to_american fair_odds_decimal
    let ev_analysis ← evAnalysisOpt offered_odds fair_prob fair_odds_decimal
    pure {
      fair_prob := fair_prob
      fair_odds_decimal := fair_odds_decimal
      fair_odds_american := fair_odds_american
      ev_analysis := ev_analysis
      books_used := be.length
      exchanges_used := ee.length
      book_contributions := (be ++ ee).map (fun c => c.2) }

/-- From `src/app/services/sharpedge_model.py`, `SharpEdge.get_fair_odds_and_ev`:
processes sportsbooks then exchanges (individually skipping contributors whose
devig fails), raises "No valid odds data found" when no contributor remains,
and otherwise builds the consensus result (with an EV analysis when a truthy
`offered_odds` is supplied). -/
def get_fair_odds_and_ev (cfg : Config) (odds_data : List (String × List ℚ))
    (exchange_data : Option (List (String × ExchangeData)))
    (offered_odds : Option ℚ) : Except PyErr ConsensusResult :=
  consensusFrom (bookEntries cfg.weights odds_data)
    (exchangeEntries cfg.exchange_weights cfg.liquidity_threshold exchange_data)
    offered_odds

end SharpEdge

namespace NFLWeightingEngine

/-- From `src/app/services/nfl_weights.py`: the three market types the engine
owns tables for. -/
inductive MarketType where
  | moneyline
  | spreads
  | totals
  deriving DecidableEq, Repr

/-- The `nfl_weights_primary` tables (insertion order preserved). -/
def nfl_weights_primary : MarketType → List (String × ℚ)
  | .moneyline =>
    [("Pinnacle", 0.33), ("Circa", 0.28), ("BetOnline", 0.19), ("DraftKings", 0.09),
     ("FanDuel", 0.05), ("BetRivers", 0.04), ("Bovada", 0.02)]
  | .spreads =>
    [("Pinnacle", 0.35), ("Circa", 0.30), ("BetOnline", 0.20), ("BookMaker", 0.08),
     ("DraftKings", 0.04), ("FanDuel", 0.03)]
  | .totals =>
    [("Pinnacle", 0.43), ("Circa", 0.24), ("BetOnline", 0.19), ("DraftKings", 0.10),
     ("BetRivers", 0.04)]

/-- The `nfl_weights_fallback` tables (insertion order preserved). -/
def nfl_weights_fallback : MarketType → List (String × ℚ)
  | .moneyline =>
    [("Pinnacle", 0.25), ("Circa", 0.22), ("BetOnline", 0.15), ("DraftKings", 0.08),
     ("FanDuel", 0.05), ("BetRivers", 0.04), ("Bovada", 0.03), ("BetMGM", 0.06),
     ("Caesars", 0.05), ("BetUS", 0.04), ("MyBookie", 0.03)]
  | .spreads =>
    [("Pinnacle", 0.30), ("Circa", 0.25), ("BetOnline", 0.12), ("BookMaker", 0.08),
     ("DraftKings", 0.08), ("BetMGM", 0.07), ("FanDuel", 0.05), ("BetRivers", 0.03),
     ("Caesars", 0.02)]
  | .totals =>
    [("Pinnacle", 0.32), ("Circa", 0.18), ("BetOnline", 0.15), ("DraftKings", 0.10),
     ("BetRivers", 0.05), ("FanDuel", 0.08), ("BetMGM", 0.06), ("Bovada", 0.04),
     ("Caesars", 0.02)]

/-- The `min_books_required` table. -/
def min_books_required : MarketType → ℕ
  | .moneyline => 3
  | .spreads => 2
  | .totals => 2

/-- The `never_use_books` blocklist. -/
def never_use_books : List String := ["WynnBET", "LowVig.ag"]

/-- From `src/app/services/nfl_weights.py`,
`NFLWeightingEngine.normalize_book_name`. -/
def normalize_book_name (api_book_name : String) : String :=
  if api_book_name = "BetOnline.ag" then "BetOnline"
  else if api_book_name = "MyBookie.ag" then "MyBookie"
  else if api_book_name = "Caesars Sportsbook" then "Caesars"
  else if api_book_name = "BetMGM Sportsbook" then "BetMGM"
  else api_book_name

/-- From `src/app/services/nfl_weights.py`,
`NFLWeightingEngine.get_available_books`: the primary-table entries whose book
is among the normalized available names, and the fallback-table entries whose
book additionally is not on the never-use blocklist. -/
def get_available_books (market_type : MarketType) (available_book_names : List String) :
    List (String × ℚ) × List (String × ℚ) :=
  let normalized_available := available_book_names.map normalize_book_name
  let available_primary :=
    (nfl_weights_primary market_type).filter
      (fun bw => normalized_available.contains bw.1)
  let available_fallback :=
    (nfl_weights_fallback market_type).filter
      (fun bw => normalized_available.contains bw.1 && !(never_use_books.contains bw.1))
  (available_primary, available_fallback)

/-- Python dict insertion: an existing key keeps its position and is given the
new value; a new key is appended. -/
def pyDictInsert (d : List (String × ℚ)) (k : String) (v : ℚ) : List (String × ℚ) :=
  if d.any (fun e => e.1 == k) then
    d.map (fun e => if e.1 == k then (e.1, v) else e)
  else d ++ [(k, v)]

/-- Python dict comprehension over a key-value sequence. -/
def pyDictOfList (l : List (String × ℚ)) : List (String × ℚ) :=
  l.foldl (fun d e => pyDictInsert d e.1 e.2) []

/-- The emergency-mode book list of `get_nfl_weights`: every available book
whose normalized name is not on the never-use blocklist. -/
def emergencyBooks (available_book_names : List String) : List String :=
  available_book_names.filter
    (fun book => !(never_use_books.contains (normalize_book_name book)))

/-- From `src/app/services/nfl_weights.py`, `NFLWeightingEngine.get_nfl_weights`
(the branch where a list of available book names is supplied): primary weights
renormalized when enough primary books are available, else fallback weights
renormalized when enough fallback books are available, else equal weights
`1/len(emergency_books)` keyed by normalized name, and the empty mapping when
no usable book remains. -/
def get_nfl_weights (market_type : MarketType) (available_book_names : List String) :
    List (String × ℚ) :=
  let ab := get_available_books market_type available_book_names
  let available_primary := ab.1
  let available_fallback := ab.2
  let min_required := min_books_required market_type
  if min_required ≤ available_primary.length then
    let total_weight := (available_primary.map (fun bw => bw.2)).sum
    available_primary.map (fun bw => (bw.1, bw.2 / total_weight))
  else if min_required ≤ available_fallback.length then
    let total_weight := (available_fallback.map (fun bw => bw.2)).sum
    available_fallback.map (fun bw => (bw.1, bw.2 / total_weight))
  else
    let emergency_books := emergencyBooks available_book_names
    if emergency_books ≠ [] then
      let equal_weight : ℚ := 1 / (emergency_books.length : ℚ)
      pyDictOfList (emergency_books.map (fun book => (normalize_book_name book, equal_weight)))
    else []

/-- Sum of the values of a weight mapping. -/
def sumValues (w : List (String × ℚ)) : ℚ := (w.map (fun e => e.2)).sum

end NFLWeightingEngine

namespace PlayerPropsModel

/-- From `src/app/services/player_props_model.py`: the `prop_weights` table
set in `PlayerPropsModel.__init__` (insertion order preserved). -/
def prop_weights : List (String × ℚ) :=
  [("FanDuel", 0.28), ("Circa", 0.22), ("Pinnacle", 0.12), ("Caesars", 0.12),
   ("PropBuilder", 0.10), ("DraftKings", 0.08), ("BetMGM", 0.06), ("BetOnline", 0.02),
   ("BookMaker", 0.00), ("WynnBET", 0.00)]

/-- Python `sorted` on rationals (the sorted values are what `median` reads). -/
def pySorted (l : List ℚ) : List ℚ := l.insertionSort (fun a b => a ≤ b)

/-- Python `statistics.median` on a non-empty list: middle element of the
sorted data for odd length, mean of the two middle elements for even length. -/
def median (l : List ℚ) : ℚ :=
  let s := pySorted l
  let n := l.length
  if n % 2 = 1 then s.getD (n / 2) 0
  else (s.getD (n / 2 - 1) 0 + s.getD (n / 2) 0) / 2

/-- From `src/app/services/player_props_model.py`,
`PlayerPropsModel.calculate_consensus_line`.  Only the `"line"` field of each
book's prop dict is read, so each book's data is embedded as
`Option ℚ` (`none` when the `"line"` key is absent).  Books that are in
`prop_weights` with strictly positive weight and supply a line contribute
`line * weight` and their weight; with no such contributor (or zero total
weight) the median of all supplied lines is returned; with no line at all the
computation fails. -/
def calculate_consensus_line (prop_data : List (String × Option ℚ)) : Except PyErr ℚ :=
  let weighted := prop_data.filterMap (fun p =>
    match p.2, prop_weights.lookup p.1 with
    | some line, some w => if 0 < w then some (line * w, w) else none
    | _, _ => none)
  let weighted_lines := weighted.map (fun e => e.1)
  let total_weight := (weighted.map (fun e => e.2)).sum
  if weighted_lines = [] ∨ total_weight = 0 then
    let lines := prop_data.filterMap (fun p => p.2)
    if lines ≠ [] then .ok (median lines)
    else .error (.valueError "No valid lines found for consensus calculation")
  else .ok (weighted_lines.sum / total_weight)

/-- From `src/app/services/player_props_model.py`,
`PlayerPropsModel.decimal_to_american` (byte-identical to
`SharpEdge.decimal_to_american` apart from its docstring). -/
def decimal_to_american (decimal_odds : ℚ) : Except PyErr String :=
  if decimal_odds < 1 then
    .error (.valueError "Decimal odds must be 1.0 or greater")
  else if 2 ≤ decimal_odds then
    .ok ("+" ++ toString (pyInt ((decimal_odds - 1) * 100)))
  else do
    let v ← pyDiv (-100) (decimal_odds - 1)
    pure (toString (pyInt v))

/-- From `src/app/services/player_props_model.py`,
`PlayerPropsModel.devig_multiplicative` (same algorithm as
`SharpEdge.devig_multiplicative`, different error message). -/
def devig_multiplicative (odds : List ℚ) : Except PyErr (List ℚ) :=
  if odds.length ≠ 2 then
    .error (.valueError "Must provide exactly 2 odds for two-way market")
  else do
    let implied_probs ← exceptMap (fun odd => pyDiv 1 odd) odds
    let overround := implied_probs.sum
    exceptMap (fun prob => pyDiv prob overround) implied_probs

end PlayerPropsModel

open NFLWeightingEngine

/-- Restriction of a weight table to the entries whose book is among the
given canonical names, renormalized to sum to one — the spec's wording for
the primary tier of the weight policy. -/
def specRestrictRenorm (table : List (String × ℚ)) (names : List String) :
    List (String × ℚ) :=
  let restricted := table.filter (fun bw => names.contains bw.1)
  let total := (restricted.map (fun bw => bw.2)).sum
  restricted.map (fun bw => (bw.1, bw.2 / total))

/-- Restriction of a weight table to the entries whose book is among the
given canonical names and not on the blocklist, renormalized to sum to
one — the spec's wording for the fallback tier of the weight policy. -/
def specRestrictRenormExcl (table : List (String × ℚ)) (names : List String)
    (blocked : List String) : List (String × ℚ) :=
  let restricted :=
    table.filter (fun bw => names.contains bw.1 && !(blocked.contains bw.1))
  let total := (restricted.map (fun bw => bw.2)).sum
  restricted.map (fun bw => (bw.1, bw.2 / total))

/-- The weighted contributors of the prop consensus line (spec §4.5(c)): the
books that carry strictly positive prop weight and supply a line, as
(line, weight) pairs in data order. -/
def propWeightedContribs (pd : List (String × Option ℚ)) : List (ℚ × ℚ) :=
  pd.filterMap (fun p =>
    match p.2, PlayerPropsModel.prop_weights.lookup p.1 with
    | some line, some w => if 0 < w then some (line, w) else none
    | _, _ => none)

/-- All lines supplied in the prop data, in data order. -/
def propSuppliedLines (pd : List (String × Option ℚ)) : List ℚ :=
  pd.filterMap (fun p => p.2)

/-! Theorems. -/

theorem ok_bind {α β : Type} (a : α) (f : α → Except PyErr β) :
    (Except.ok a >>= f) = f a := rfl

theorem error_bind {α β : Type} (e : PyErr) (f : α → Except PyErr β) :
    ((Except.error e : Except PyErr α) >>= f) = Except.error e := rfl

theorem pure_eq_ok {β : Type} (b : β) : (pure b : Except PyErr β) = Except.ok b := rfl

/-- Decomposition of a bind over `Except` that produced an error. -/
theorem bind_eq_error {α β : Type} (x : Except PyErr α) (f : α → Except PyErr β) (e : PyErr) :
    (x >>= f) = .error e ↔ x = .error e ∨ ∃ a, x = .ok a ∧ f a = .error e := by
  cases x with
  | error e0 => simp [error_bind]
  | ok a => simp [ok_bind]

/-! Helper lemmas shared by several claims. -/

theorem devig_eval (a b : ℚ) (ha : a ≠ 0) (hb : b ≠ 0) (hs : 1 / a + 1 / b ≠ 0) :
    SharpEdge.devig_multiplicative [a, b] =
      .ok [(1 / a) / (1 / a + 1 / b), (1 / b) / (1 / a + 1 / b)] := by
  have hs2 : a⁻¹ + b⁻¹ ≠ 0 := by simpa [one_div] using hs
  simp [SharpEdge.devig_multiplicative, exceptMap, pyDiv, ha, hb, hs2, ok_bind]

theorem devig_eval_pp (a b : ℚ) (ha : a ≠ 0) (hb : b ≠ 0) (hs : 1 / a + 1 / b ≠ 0) :
    PlayerPropsModel.devig_multiplicative [a, b] =
      .ok [(1 / a) / (1 / a + 1 / b), (1 / b) / (1 / a + 1 / b)] := by
  have hs2 : a⁻¹ + b⁻¹ ≠ 0 := by simpa [one_div] using hs
  simp [PlayerPropsModel.devig_multiplicative, exceptMap, pyDiv, ha, hb, hs2, ok_bind]

/-- C2: for a two-element pair of decimal odds each strictly greater than 1.0,
`devig_multiplicative` returns exactly the implied probabilities `1/odds_A`
and `1/odds_B` each divided by their sum (the overround); the two returned
probabilities sum to 1 exactly (hence within 1e-9), and the input
`(1.91, 1.91)` yields `(0.5, 0.5)` exactly. -/
theorem claim_C2_devig_formula (a b : ℚ) (ha : 1 < a) (hb : 1 < b) :
    SharpEdge.devig_multiplicative [a, b] =
      .ok [(1 / a) / (1 / a + 1 / b), (1 / b) / (1 / a + 1 / b)] ∧
    (1 / a) / (1 / a + 1 / b) + (1 / b) / (1 / a + 1 / b) = 1 ∧
    |((1 / a) / (1 / a + 1 / b) + (1 / b) / (1 / a + 1 / b)) - 1| ≤ 1 / 1000000000 ∧
    SharpEdge.devig_multiplicative [1.91, 1.91] = .ok [0.5, 0.5] := by
  have ha0 : a ≠ 0 := by positivity
  have hb0 : b ≠ 0 := by positivity
  have hia : 0 < 1 / a := by positivity
  have hib : 0 < 1 / b := by positivity
  have hs : 1 / a + 1 / b ≠ 0 := by positivity
  have hsum : (1 / a) / (1 / a + 1 / b) + (1 / b) / (1 / a + 1 / b) = 1 := by
    field_simp
  refine ⟨devig_eval a b ha0 hb0 hs, hsum, ?_, ?_⟩
  · rw [hsum]; norm_num
  · norm_num [SharpEdge.devig_multiplicative, exceptMap, pyDiv, ok_bind]

/-- Witness for C2 at the concrete input (1.91, 1.91). -/
theorem claim_C2_witness :
    SharpEdge.devig_multiplicative [(1.91 : ℚ), 1.91] = .ok [0.5, 0.5] :=
  (claim_C2_devig_formula 1.91 1.91 (by norm_num) (by norm_num)).2.2.2

/-- C1 counterexample: for the input `(0.5, 3.0)`, whose first element is
≤ 1.0, the devigging primitive does not fail — it returns the probability
pair `(6/7, 1/7)`. -/
theorem claim_C1_counterexample :
    SharpEdge.devig_multiplicative [0.5, 3] = .ok [6/7, 1/7] := by
  norm_num [SharpEdge.devig_multiplicative, exceptMap, pyDiv, ok_bind]

/-- C1 amended: the devigging primitive fails when the input does not contain
exactly two elements; for a two-element input it fails exactly when one of
the odds is zero or the implied probabilities sum to zero — it performs no
validation against odds ≤ 1.0. -/
theorem claim_C1_amended (odds : List ℚ) (a b : ℚ) :
    (odds.length ≠ 2 →
      SharpEdge.devig_multiplicative odds =
        .error (.valueError "Multiplicative devig requires exactly 2 odds (for a two-way market)")) ∧
    ((∃ e, SharpEdge.devig_multiplicative [a, b] = .error e) ↔
      a = 0 ∨ b = 0 ∨ 1 / a + 1 / b = 0) := by
  constructor
  · intro h
    simp [SharpEdge.devig_multiplicative, h]
  · by_cases ha : a = 0
    · simp [SharpEdge.devig_multiplicative, exceptMap, pyDiv, ha, error_bind]
    · by_cases hb : b = 0
      · simp [SharpEdge.devig_multiplicative, exceptMap, pyDiv, ha, hb, error_bind, ok_bind]
      · by_cases hs : a⁻¹ + b⁻¹ = 0
        · simp [SharpEdge.devig_multiplicative, exceptMap, pyDiv, ha, hb, hs, error_bind,
            ok_bind, one_div]
        · have hs1 : 1 / a + 1 / b ≠ 0 := by simpa [one_div] using hs
          rw [devig_eval a b ha hb hs1]
          simp [ha, hb, one_div, hs]

/-- Witness for C1 amended: a one-element input is rejected with the arity
error. -/
theorem claim_C1_witness :
    SharpEdge.devig_multiplicative [3] =
      .error (.valueError "Multiplicative devig requires exactly 2 odds (for a two-way market)") :=
  (claim_C1_amended [3] 0 0).1 (by decide)

/-- C5: `calculate_ev` raises exactly when offered odds ≤ 1.0 or the fair
probability lies outside the open interval (0,1); for valid inputs it returns
`100 * (fair_prob * (offered - 1) - (1 - fair_prob))`; offered odds 2.05 with
fair probability 0.53 yield exactly 8.65. -/
theorem claim_C5_calculate_ev (o p : ℚ) :
    ((∃ e, SharpEdge.calculate_ev o p = .error e) ↔ (o ≤ 1 ∨ ¬(0 < p ∧ p < 1))) ∧
    (1 < o → 0 < p → p < 1 →
      SharpEdge.calculate_ev o p = .ok (100 * (p * (o - 1) - (1 - p)))) ∧
    SharpEdge.calculate_ev 2.05 0.53 = .ok 8.65 := by
  refine ⟨?_, ?_, by norm_num [SharpEdge.calculate_ev]⟩
  · by_cases h1 : o ≤ 1
    · simp [SharpEdge.calculate_ev, h1]
    · by_cases h2 : 0 < p ∧ p < 1
      · simp [SharpEdge.calculate_ev, h1, h2]
      · simp [SharpEdge.calculate_ev, h1, h2]
  · intro h1 h2 h3
    have h1n : ¬ o ≤ 1 := not_le.mpr h1
    simp [SharpEdge.calculate_ev, h1n, h2, h3]
    ring

/-- Witness for C5 at offered odds 2.05 and fair probability 0.53. -/
theorem claim_C5_witness :
    SharpEdge.calculate_ev 2.05 0.53 = .ok (100 * (0.53 * ((2.05 : ℚ) - 1) - (1 - 0.53))) :=
  (claim_C5_calculate_ev 2.05 0.53).2.1 (by norm_num) (by norm_num) (by norm_num)

/-- C3: for a non-empty contributor list, `calculate_fair_probability` fails
exactly when the total weight is zero, otherwise returns
`Σ(prob·weight) / Σ(weight)`; the contributors (0.55 at weight 0.6) and
(0.50 at weight 0.4) yield exactly 0.53. -/
theorem claim_C3_fair_probability (l : List SharpEdge.MarketProb) (hne : l ≠ []) :
    (SharpEdge.calculate_fair_probability l =
        .error (.valueError "Total weight cannot be zero") ↔
      (l.map (fun book => book.weight)).sum = 0) ∧
    ((l.map (fun book => book.weight)).sum ≠ 0 →
      SharpEdge.calculate_fair_probability l =
        .ok ((l.map (fun book => book.prob * book.weight)).sum /
          (l.map (fun book => book.weight)).sum)) ∧
    SharpEdge.calculate_fair_probability
        [SharpEdge.MarketProb.mk 0.55 0.6, SharpEdge.MarketProb.mk 0.50 0.4] = .ok 0.53 := by
  refine ⟨?_, ?_, by norm_num [SharpEdge.calculate_fair_probability] ; simp⟩
  · by_cases hw : (l.map (fun book => book.weight)).sum = 0
    · simp [SharpEdge.calculate_fair_probability, hne, hw]
    · simp [SharpEdge.calculate_fair_probability, hne, hw]
  · intro hw
    simp [SharpEdge.calculate_fair_probability, hne, hw]

/-- Witness for C3 at the two-contributor scenario list. -/
theorem claim_C3_witness :
    SharpEdge.calculate_fair_probability
        [SharpEdge.MarketProb.mk 0.55 0.6, SharpEdge.MarketProb.mk 0.50 0.4] = .ok 0.53 :=
  (claim_C3_fair_probability [SharpEdge.MarketProb.mk 0.55 0.6, SharpEdge.MarketProb.mk 0.50 0.4]
    (List.cons_ne_nil _ _)).2.2

/-- C4 counterexample: at decimal odds 1.6 the conversion returns "-166"
(truncation toward zero of -166.66...), while the claimed
`floor(-100/(d-1))` formula gives -167; so the negative branch is not a
floor. -/
theorem claim_C4_counterexample :
    SharpEdge.decimal_to_american 1.6 = .ok "-166" ∧
    toString (⌊(-100 : ℚ) / (1.6 - 1)⌋) = "-167" ∧
    SharpEdge.decimal_to_american 1.6 ≠ .ok (toString (⌊(-100 : ℚ) / (1.6 - 1)⌋)) := by
  have hf : (⌊(-100 : ℚ) / (1.6 - 1)⌋ : ℤ) = -167 := by
    rw [Int.floor_eq_iff] ; norm_num
  have hc : (⌈-(500 / 3 : ℚ)⌉ : ℤ) = -166 := by
    rw [Int.ceil_eq_iff] ; norm_num
  have h1 : SharpEdge.decimal_to_american 1.6 = .ok "-166" := by
    norm_num [SharpEdge.decimal_to_american, pyDiv, ok_bind, pyInt]
    rw [hc] ; decide
  refine ⟨h1, by rw [hf] ; decide, ?_⟩
  rw [h1, hf]
  decide

/-- C4 amended: for decimal odds d > 1, the conversion returns
`"+" ++ str(floor((d-1)*100))` when d ≥ 2, and the string of the
truncation toward zero of `-100/(d-1)` — which, the value being negative, is
its ceiling, not its floor — when 1 < d < 2.  The same holds for the
byte-identical copy in the player props model. -/
theorem claim_C4_amended (d : ℚ) (hd : 1 < d) :
    (2 ≤ d → SharpEdge.decimal_to_american d =
      .ok ("+" ++ toString ⌊(d - 1) * 100⌋)) ∧
    (d < 2 → SharpEdge.decimal_to_american d =
      .ok (toString ⌈(-100) / (d - 1)⌉)) ∧
    (2 ≤ d → PlayerPropsModel.decimal_to_american d =
      .ok ("+" ++ toString ⌊(d - 1) * 100⌋)) ∧
    (d < 2 → PlayerPropsModel.decimal_to_american d =
      .ok (toString ⌈(-100) / (d - 1)⌉)) := by
  have hn1 : ¬ d < 1 := by linarith
  have hdz : d - 1 ≠ 0 := sub_ne_zero.mpr (ne_of_gt hd)
  refine ⟨?_, ?_, ?_, ?_⟩ <;> intro h2
  · have hpos : (0:ℚ) ≤ (d - 1) * 100 := by nlinarith
    simp [SharpEdge.decimal_to_american, hn1, h2, pyInt, hpos]
  · have hneg : ¬ (0:ℚ) ≤ (-100) / (d - 1) := by
      have hp : (0:ℚ) < d - 1 := by linarith
      have hlt := div_neg_of_neg_of_pos (by norm_num : (-100:ℚ) < 0) hp
      linarith
    have hn2 : ¬ 2 ≤ d := not_le.mpr h2
    simp [SharpEdge.decimal_to_american, hn1, hn2, pyDiv, hdz, ok_bind, pyInt, hneg]
  · have hpos : (0:ℚ) ≤ (d - 1) * 100 := by nlinarith
    simp [PlayerPropsModel.decimal_to_american, hn1, h2, pyInt, hpos]
  · have hneg : ¬ (0:ℚ) ≤ (-100) / (d - 1) := by
      have hp : (0:ℚ) < d - 1 := by linarith
      have hlt := div_neg_of_neg_of_pos (by norm_num : (-100:ℚ) < 0) hp
      linarith
    have hn2 : ¬ 2 ≤ d := not_le.mpr h2
    simp [PlayerPropsModel.decimal_to_american, hn1, hn2, pyDiv, hdz, ok_bind, pyInt, hneg]

/-- Witness for C4 amended at decimal odds 2.5 (positive branch). -/
theorem claim_C4_witness :
    SharpEdge.decimal_to_american 2.5 = .ok ("+" ++ toString ⌊((2.5 : ℚ) - 1) * 100⌋) :=
  (claim_C4_amended 2.5 (by norm_num)).1 (by norm_num)

/-- C10: the American-odds conversion's validity check rejects (with its
`ValueError`) exactly the inputs strictly below 1.0, and at input exactly 1.0
both copies of the function raise an unguarded `ZeroDivisionError` from the
negative-odds branch. -/
theorem claim_C10_zero_division (d : ℚ) :
    (SharpEdge.decimal_to_american d =
        .error (.valueError "Decimal odds must be 1.0 or greater") ↔ d < 1) ∧
    SharpEdge.decimal_to_american 1 = .error .zeroDivisionError ∧
    PlayerPropsModel.decimal_to_american 1 = .error .zeroDivisionError := by
  refine ⟨?_, by norm_num [SharpEdge.decimal_to_american, pyDiv, error_bind],
    by norm_num [PlayerPropsModel.decimal_to_american, pyDiv, error_bind]⟩
  by_cases h1 : d < 1
  · simp [SharpEdge.decimal_to_american, h1]
  · by_cases h2 : 2 ≤ d
    · simp [SharpEdge.decimal_to_american, h1, h2]
    · by_cases hz : d - 1 = 0
      · simp [SharpEdge.decimal_to_american, h1, h2, pyDiv, hz, error_bind]
      · simp [SharpEdge.decimal_to_american, h1, h2, pyDiv, hz, ok_bind]

/-- Witness for C10 at input 0.5 (rejected by the validity check). -/
theorem claim_C10_witness :
    SharpEdge.decimal_to_american 0.5 =
      .error (.valueError "Decimal odds must be 1.0 or greater") :=
  (claim_C10_zero_division 0.5).1.mpr (by norm_num)

theorem sumValues_map_div (l : List (String × ℚ)) (T : ℚ) :
    sumValues (l.map (fun bw => (bw.1, bw.2 / T))) =
      (l.map (fun bw => bw.2)).sum / T := by
  induction l with
  | nil => simp [sumValues]
  | cons a as ih =>
    simp only [sumValues, List.map_cons, List.map_map, List.sum_cons] at *
    rw [add_div, ← ih]

theorem sumValues_const_map (books : List String) (f : String → String) (c : ℚ) :
    sumValues (books.map (fun b => (f b, c))) = (books.length : ℚ) * c := by
  induction books with
  | nil => simp [sumValues]
  | cons a as ih =>
    simp only [sumValues, List.map_cons, List.map_map, List.sum_cons] at *
    rw [ih]
    simp [List.length_cons]
    ring

/-- Every weight in the primary and fallback NFL tables is strictly
positive. -/
theorem table_weights_pos (mt : MarketType) :
    (∀ e ∈ nfl_weights_primary mt, 0 < e.2) ∧
    (∀ e ∈ nfl_weights_fallback mt, 0 < e.2) := by
  cases mt <;> refine ⟨?_, ?_⟩ <;>
    simp [nfl_weights_primary, nfl_weights_fallback, List.forall_mem_cons] <;> norm_num

theorem pyDictFold_app (l : List (String × ℚ)) :
    ∀ d : List (String × ℚ), (((d ++ l).map (fun e => e.1)).Nodup) →
      l.foldl (fun acc e => pyDictInsert acc e.1 e.2) d = d ++ l := by
  induction l with
  | nil => intro d _; simp
  | cons a as ih =>
    intro d h
    have hmem : a.1 ∉ d.map (fun e => e.1) := by
      simp only [List.map_append, List.nodup_append] at h
      intro hc
      exact h.2.2 hc (by simp)
    have hins : pyDictInsert d a.1 a.2 = d ++ [a] := by
      have hany : d.any (fun e => e.1 == a.1) = false := by
        rw [Bool.eq_false_iff]
        intro htrue
        rcases List.any_eq_true.mp htrue with ⟨e, he, hbe⟩
        exact hmem (List.mem_map.mpr ⟨e, he, by simpa using hbe⟩)
      simp [pyDictInsert, hany]
    have hh : (((d ++ [a]) ++ as).map (fun e => e.1)).Nodup := by
      rw [List.append_assoc]
      simpa using h
    calc (a :: as).foldl (fun acc e => pyDictInsert acc e.1 e.2) d
        = as.foldl (fun acc e => pyDictInsert acc e.1 e.2) (d ++ [a]) := by
          simp [List.foldl_cons, hins]
      _ = (d ++ [a]) ++ as := ih (d ++ [a]) hh
      _ = d ++ a :: as := by simp

/-- A Python dict comprehension over key-value pairs with pairwise-distinct
keys is the pair list itself. -/
theorem pyDictOfList_eq_self (l : List (String × ℚ))
    (h : (l.map (fun e => e.1)).Nodup) : pyDictOfList l = l := by
  have := pyDictFold_app l [] (by simpa using h)
  simpa [pyDictOfList] using this

theorem keys_pyDictInsert (d : List (String × ℚ)) (k : String) (v : ℚ) (q : String)
    (h : q ∈ d.map (fun e => e.1) ∨ q = k) :
    q ∈ (pyDictInsert d k v).map (fun e => e.1) := by
  unfold pyDictInsert
  by_cases hany : d.any (fun e => e.1 == k) = true
  · rw [if_pos hany]
    have hkeys : (d.map (fun e => if e.1 == k then (e.1, v) else e)).map (fun e => e.1) =
        d.map (fun e => e.1) := by
      rw [List.map_map]
      refine List.map_congr_left ?_
      intro e _
      simp only [Function.comp_apply]
      split
      · rfl
      · rfl
    rw [hkeys]
    rcases h with h | rfl
    · exact h
    · rcases List.any_eq_true.mp hany with ⟨e, he, hbe⟩
      exact List.mem_map.mpr ⟨e, he, by simpa using hbe⟩
  · rw [if_neg hany, List.map_append]
    rcases h with h | rfl
    · exact List.mem_append.mpr (Or.inl h)
    · simp

theorem mem_pyDictInsert (d : List (String × ℚ)) (k : String) (v : ℚ) (entry : String × ℚ)
    (h : entry ∈ pyDictInsert d k v) :
    entry.1 ∈ d.map (fun e => e.1) ∨ entry.1 = k := by
  unfold pyDictInsert at h
  by_cases hany : d.any (fun e => e.1 == k) = true
  · rw [if_pos hany] at h
    rcases List.mem_map.mp h with ⟨e, he, heq⟩
    by_cases hek : (e.1 == k) = true
    · rw [if_pos hek] at heq
      left
      exact List.mem_map.mpr ⟨e, he, by rw [← heq]⟩
    · rw [if_neg hek] at heq
      left
      exact List.mem_map.mpr ⟨e, he, by rw [← heq]⟩
  · rw [if_neg hany] at h
    rcases List.mem_append.mp h with h1 | h1
    · left
      exact List.mem_map.mpr ⟨entry, h1, rfl⟩
    · right
      simp at h1
      rw [h1]

theorem pyDictFold_keys (l : List (String × ℚ)) :
    ∀ (d : List (String × ℚ)) (q : String),
      q ∈ d.map (fun e => e.1) ∨ q ∈ l.map (fun e => e.1) →
      q ∈ ((l.foldl (fun acc x => pyDictInsert acc x.1 x.2) d).map (fun e => e.1)) := by
  induction l with
  | nil =>
    intro d q h
    rcases h with h | h
    · simpa using h
    · simp at h
  | cons x xs ih =>
    intro d q h
    simp only [List.foldl_cons]
    apply ih
    rcases h with h | h
    · exact Or.inl (keys_pyDictInsert d x.1 x.2 q (Or.inl h))
    · simp only [List.map_cons, List.mem_cons] at h
      rcases h with h | h
      · exact Or.inl (keys_pyDictInsert d x.1 x.2 q (Or.inr h))
      · exact Or.inr h

theorem pyDictFold_mem (l : List (String × ℚ)) :
    ∀ (d : List (String × ℚ)) (entry : String × ℚ),
      entry ∈ l.foldl (fun acc x => pyDictInsert acc x.1 x.2) d →
      entry.1 ∈ d.map (fun e => e.1) ∨ entry.1 ∈ l.map (fun e => e.1) := by
  induction l with
  | nil =>
    intro d entry h
    exact Or.inl (List.mem_map.mpr ⟨entry, h, rfl⟩)
  | cons x xs ih =>
    intro d entry h
    simp only [List.foldl_cons] at h
    rcases ih (pyDictInsert d x.1 x.2) entry h with h1 | h1
    · rcases List.mem_map.mp h1 with ⟨e, he, heq⟩
      rcases mem_pyDictInsert d x.1 x.2 e he with h2 | h2
      · left
        rw [← heq]
        exact h2
      · right
        simp only [List.map_cons, List.mem_cons]
        left
        rw [← heq, h2]
    · right
      simp only [List.map_cons, List.mem_cons]
      exact Or.inr h1

theorem pyDictFold_values (c : ℚ) : ∀ (l d : List (String × ℚ)),
    (∀ e ∈ l, e.2 = c) → (∀ e ∈ d, e.2 = c) →
    ∀ e ∈ l.foldl (fun acc x => pyDictInsert acc x.1 x.2) d, e.2 = c := by
  intro l
  induction l with
  | nil =>
    intro d _ hd e he
    exact hd e he
  | cons x xs ih =>
    intro d hl hd e he
    simp only [List.foldl_cons] at he
    have hx := hl x (by simp)
    refine ih (pyDictInsert d x.1 x.2) (fun y hy => hl y (by simp [hy])) ?_ e he
    intro y hy
    unfold pyDictInsert at hy
    split at hy
    · rcases List.mem_map.mp hy with ⟨z, hz, rfl⟩
      split
      · exact hx
      · exact hd z hz
    · rcases List.mem_append.mp hy with hz | hz
      · exact hd y hz
      · simp at hz
        rw [hz]
        exact hx

theorem lookup_of_key_mem (d : List (String × ℚ)) (q : String) (c : ℚ)
    (hk : q ∈ d.map (fun e => e.1)) (hv : ∀ e ∈ d, e.2 = c) :
    d.lookup q = some c := by
  induction d with
  | nil => simp at hk
  | cons x xs ih =>
    cases x with
    | mk k1 v1 =>
      by_cases hq : q = k1
      · have hvx : v1 = c := hv (k1, v1) (by simp)
        simp [List.lookup, hq, hvx]
      · have hk2 : q ∈ xs.map (fun e => e.1) := by
          simp only [List.map_cons, List.mem_cons] at hk
          rcases hk with h | h
          · exact absurd h hq
          · exact h
        have ih2 := ih hk2 (fun e he => hv e (by simp [he]))
        have hbe : (q == k1) = false := beq_eq_false_iff_ne.mpr hq
        simpa [List.lookup, hbe] using ih2


/-- C6: the weight policy follows the three-tier selection — primary weights
restricted and renormalized when enough primary books are available, else
fallback weights (excluding never-use books) restricted and renormalized when
enough fallback books are available, else equal weight `1/k` per usable book
(empty mapping when none); the scenario with minimum 3, 2 available primary
books and 4 available fallback books selects the fallback tier. -/
theorem claim_C6_three_tier (mt : MarketType) (avail : List String) :
    (min_books_required mt ≤ ((get_available_books mt avail).1).length →
      get_nfl_weights mt avail =
        specRestrictRenorm (nfl_weights_primary mt) (avail.map normalize_book_name)) ∧
    (((get_available_books mt avail).1).length < min_books_required mt →
      min_books_required mt ≤ ((get_available_books mt avail).2).length →
      get_nfl_weights mt avail =
        specRestrictRenormExcl (nfl_weights_fallback mt) (avail.map normalize_book_name)
          never_use_books) ∧
    (((get_available_books mt avail).1).length < min_books_required mt →
      ((get_available_books mt avail).2).length < min_books_required mt →
      (emergencyBooks avail ≠ [] →
        (∀ book ∈ emergencyBooks avail,
          (get_nfl_weights mt avail).lookup (normalize_book_name book) =
            some (1 / ((emergencyBooks avail).length : ℚ))) ∧
        (∀ entry ∈ get_nfl_weights mt avail,
          entry.1 ∈ (emergencyBooks avail).map normalize_book_name ∧
          entry.2 = 1 / ((emergencyBooks avail).length : ℚ))) ∧
      (emergencyBooks avail = [] → get_nfl_weights mt avail = [])) ∧
    (min_books_required MarketType.moneyline = 3 ∧
      ((get_available_books MarketType.moneyline
        ["Pinnacle", "Circa", "BetMGM", "Caesars"]).1).length = 2 ∧
      ((get_available_books MarketType.moneyline
        ["Pinnacle", "Circa", "BetMGM", "Caesars"]).2).length = 4 ∧
      get_nfl_weights MarketType.moneyline ["Pinnacle", "Circa", "BetMGM", "Caesars"] =
        specRestrictRenormExcl (nfl_weights_fallback MarketType.moneyline)
          (["Pinnacle", "Circa", "BetMGM", "Caesars"].map normalize_book_name)
          never_use_books) := by
  refine ⟨?_, ?_, ?_, by decide, by decide, by decide, by rfl⟩
  · intro h
    simp only [get_nfl_weights]
    rw [if_pos h]
    rfl
  · intro h1 h2
    simp only [get_nfl_weights]
    rw [if_neg (not_le.mpr h1), if_pos h2]
    rfl
  · intro h1 h2
    constructor
    · intro hE
      have hres : get_nfl_weights mt avail =
          pyDictOfList ((emergencyBooks avail).map
            (fun book => (normalize_book_name book, 1 / ((emergencyBooks avail).length : ℚ)))) := by
        simp only [get_nfl_weights]
        rw [if_neg (not_le.mpr h1), if_neg (not_le.mpr h2), if_pos hE]
      have hvalL : ∀ e ∈ (emergencyBooks avail).map
          (fun book => (normalize_book_name book, 1 / ((emergencyBooks avail).length : ℚ))),
          e.2 = 1 / ((emergencyBooks avail).length : ℚ) := by
        intro e he
        rcases List.mem_map.mp he with ⟨b, _, rfl⟩
        rfl
      have hkeysL : ((emergencyBooks avail).map
          (fun book => (normalize_book_name book,
            1 / ((emergencyBooks avail).length : ℚ)))).map (fun e => e.1) =
          (emergencyBooks avail).map normalize_book_name := by
        rw [List.map_map]
        rfl
      have hvals : ∀ e ∈ get_nfl_weights mt avail,
          e.2 = 1 / ((emergencyBooks avail).length : ℚ) := by
        rw [hres]
        exact pyDictFold_values _ _ [] hvalL (by intro e he; simp at he)
      constructor
      · intro book hbook
        rw [hres]
        apply lookup_of_key_mem
        · apply pyDictFold_keys _ []
          right
          rw [hkeysL]
          exact List.mem_map.mpr ⟨book, hbook, rfl⟩
        · rw [← hres]
          exact hvals
      · intro entry hmem
        refine ⟨?_, hvals entry hmem⟩
        rw [hres] at hmem
        rcases pyDictFold_mem _ [] entry hmem with h | h
        · simp at h
        · rw [hkeysL] at h
          exact h
    · intro hE
      simp only [get_nfl_weights]
      rw [if_neg (not_le.mpr h1), if_neg (not_le.mpr h2), if_neg (by simpa using hE)]

/-- Witness for C6: with the three sharp moneyline books available the
primary tier is selected. -/
theorem claim_C6_witness :
    get_nfl_weights MarketType.moneyline ["Pinnacle", "Circa", "BetOnline"] =
      specRestrictRenorm (nfl_weights_primary MarketType.moneyline)
        (["Pinnacle", "Circa", "BetOnline"].map normalize_book_name) :=
  (claim_C6_three_tier MarketType.moneyline ["Pinnacle", "Circa", "BetOnline"]).1 (by decide)

/-- C7 amended: whenever the weight policy returns a non-empty mapping AND no
two usable available book names normalize to the same canonical name, the
returned weights sum to 1.0 within 1e-9 (in fact exactly 1).  The
duplicate-name proviso is forced by emergency mode, which divides by the
length of the available list but keys the result by normalized name. -/
theorem claim_C7_amended (mt : MarketType) (avail : List String)
    (hnodup : ((emergencyBooks avail).map normalize_book_name).Nodup)
    (hne : get_nfl_weights mt avail ≠ []) :
    |sumValues (get_nfl_weights mt avail) - 1| ≤ 1 / 1000000000 := by
  have hmin2 : 2 ≤ min_books_required mt := by cases mt <;> decide
  have happ := (table_weights_pos mt).1
  have hfap := (table_weights_pos mt).2
  by_cases h1 : min_books_required mt ≤ ((get_available_books mt avail).1).length
  · have hform : get_nfl_weights mt avail =
        ((get_available_books mt avail).1).map (fun bw =>
          (bw.1, bw.2 / ((((get_available_books mt avail).1).map (fun bw => bw.2)).sum))) := by
      simp only [get_nfl_weights]
      rw [if_pos h1]
    have hne1 : (get_available_books mt avail).1 ≠ [] := by
      intro hcon
      rw [hcon] at h1
      simp at h1
      omega
    have hpos : 0 < (((get_available_books mt avail).1).map (fun bw => bw.2)).sum := by
      apply List.sum_pos
      · intro x hx
        rcases List.mem_map.mp hx with ⟨e, he, rfl⟩
        exact happ e (List.mem_of_mem_filter he)
      · simpa using hne1
    rw [hform, sumValues_map_div, div_self (ne_of_gt hpos)]
    norm_num
  · by_cases h2 : min_books_required mt ≤ ((get_available_books mt avail).2).length
    · have hform : get_nfl_weights mt avail =
          ((get_available_books mt avail).2).map (fun bw =>
            (bw.1, bw.2 / ((((get_available_books mt avail).2).map (fun bw => bw.2)).sum))) := by
        simp only [get_nfl_weights]
        rw [if_neg h1, if_pos h2]
      have hne2 : (get_available_books mt avail).2 ≠ [] := by
        intro hcon
        rw [hcon] at h2
        simp at h2
        omega
      have hpos : 0 < (((get_available_books mt avail).2).map (fun bw => bw.2)).sum := by
        apply List.sum_pos
        · intro x hx
          rcases List.mem_map.mp hx with ⟨e, he, rfl⟩
          exact hfap e (List.mem_of_mem_filter he)
        · simpa using hne2
      rw [hform, sumValues_map_div, div_self (ne_of_gt hpos)]
      norm_num
    · by_cases hE : emergencyBooks avail = []
      · exfalso
        apply hne
        simp only [get_nfl_weights]
        rw [if_neg h1, if_neg h2, if_neg (by simpa using hE)]
      · have hform : get_nfl_weights mt avail =
            pyDictOfList ((emergencyBooks avail).map
              (fun book => (normalize_book_name book,
                1 / ((emergencyBooks avail).length : ℚ)))) := by
          simp only [get_nfl_weights]
          rw [if_neg h1, if_neg h2, if_pos hE]
        have hkeys : (((emergencyBooks avail).map
            (fun book => (normalize_book_name book,
              1 / ((emergencyBooks avail).length : ℚ)))).map (fun e => e.1)).Nodup := by
          rw [List.map_map]
          simpa using hnodup
        rw [hform, pyDictOfList_eq_self _ hkeys, sumValues_const_map]
        have hk : ((emergencyBooks avail).length : ℚ) ≠ 0 := by
          simpa using List.length_pos.mpr hE |>.ne'
        rw [mul_one_div, div_self hk]
        norm_num

/-- C7 counterexample: for the available-book list `["FanDuel", "FanDuel"]`
(two entries with the same canonical name) the moneyline policy returns the
non-empty mapping `[("FanDuel", 1/2)]`, whose weights sum to 1/2, not 1.0
within 1e-9. -/
theorem claim_C7_counterexample :
    get_nfl_weights MarketType.moneyline ["FanDuel", "FanDuel"] = [("FanDuel", 1/2)] ∧
    sumValues (get_nfl_weights MarketType.moneyline ["FanDuel", "FanDuel"]) = 1/2 ∧
    ¬ |sumValues (get_nfl_weights MarketType.moneyline ["FanDuel", "FanDuel"]) - 1| ≤
        1 / 1000000000 := by
  have h : get_nfl_weights MarketType.moneyline ["FanDuel", "FanDuel"] = [("FanDuel", 1/2)] := by
    simp +decide [get_nfl_weights, get_available_books, nfl_weights_primary, nfl_weights_fallback,
      min_books_required, emergencyBooks, never_use_books, normalize_book_name, pyDictOfList,
      pyDictInsert]
  refine ⟨h, by rw [h] ; norm_num [sumValues], ?_⟩
  rw [h]
  have hs : sumValues [("FanDuel", (1:ℚ)/2)] = 1/2 := by norm_num [sumValues]
  rw [hs, show (1:ℚ)/2 - 1 = -(1/2) by norm_num, abs_neg,
    abs_of_pos (by norm_num : (0:ℚ) < 1/2)]
  norm_num

/-- Witness for C7 amended: three distinct sharp books give a normalized
moneyline weight mapping. -/
theorem claim_C7_witness :
    |sumValues (get_nfl_weights MarketType.moneyline ["Pinnacle", "Circa", "BetOnline"]) - 1| ≤
      1 / 1000000000 :=
  claim_C7_amended MarketType.moneyline ["Pinnacle", "Circa", "BetOnline"] (by decide)
    (by decide)

theorem weighted_eq_contribs (pd : List (String × Option ℚ)) :
    pd.filterMap (fun p =>
      match p.2, PlayerPropsModel.prop_weights.lookup p.1 with
      | some line, some w => if 0 < w then some (line * w, w) else none
      | _, _ => none) =
    (propWeightedContribs pd).map (fun e => (e.1 * e.2, e.2)) := by
  induction pd with
  | nil => rfl
  | cons p ps ih =>
    simp only [propWeightedContribs, List.filterMap_cons] at *
    cases hp : p.2 with
    | none => simpa [hp] using ih
    | some line =>
      cases hl : PlayerPropsModel.prop_weights.lookup p.1 with
      | none => simpa [hp, hl] using ih
      | some w =>
        by_cases hpos : 0 < w
        · simpa [hp, hl, hpos] using ih
        · simpa [hp, hl, hpos] using ih

theorem contrib_weight_pos (pd : List (String × Option ℚ)) :
    ∀ e ∈ propWeightedContribs pd, 0 < e.2 := by
  intro e he
  rcases List.mem_filterMap.mp he with ⟨p, _, hsome⟩
  cases hp : p.2 with
  | none => rw [hp] at hsome; simp at hsome
  | some line =>
    cases hl : PlayerPropsModel.prop_weights.lookup p.1 with
    | none => rw [hp, hl] at hsome; simp at hsome
    | some w =>
      rw [hp, hl] at hsome
      have hsome2 : (if 0 < w then some (line, w) else none) = some e := hsome
      by_cases hpos : 0 < w
      · rw [if_pos hpos] at hsome2
        cases hsome2
        exact hpos
      · rw [if_neg hpos] at hsome2
        cases hsome2

theorem lines_nil_contribs (pd : List (String × Option ℚ))
    (h : propSuppliedLines pd = []) : propWeightedContribs pd = [] := by
  induction pd with
  | nil => rfl
  | cons p ps ih =>
    simp only [propSuppliedLines, List.filterMap_cons] at h
    cases hp : p.2 with
    | some l => rw [hp] at h; simp at h
    | none =>
      rw [hp] at h
      simp only [propWeightedContribs, List.filterMap_cons, hp]
      exact ih h

theorem ccl_weighted (pd : List (String × Option ℚ))
    (hne : propWeightedContribs pd ≠ []) :
    PlayerPropsModel.calculate_consensus_line pd =
      .ok (((propWeightedContribs pd).map (fun e => e.1 * e.2)).sum /
        ((propWeightedContribs pd).map (fun e => e.2)).sum) := by
  have hpos : 0 < ((propWeightedContribs pd).map (fun e => e.2)).sum := by
    apply List.sum_pos
    · intro x hx
      rcases List.mem_map.mp hx with ⟨e, he, rfl⟩
      exact contrib_weight_pos pd e he
    · simpa using hne
  simp only [PlayerPropsModel.calculate_consensus_line, weighted_eq_contribs pd,
    List.map_map]
  have h1 : ((fun e => e.1) ∘ fun e : ℚ × ℚ => (e.1 * e.2, e.2)) =
      fun e : ℚ × ℚ => e.1 * e.2 := rfl
  have h2 : ((fun e => e.2) ∘ fun e : ℚ × ℚ => (e.1 * e.2, e.2)) =
      fun e : ℚ × ℚ => e.2 := rfl
  rw [h1, h2]
  rw [if_neg]
  push_neg
  exact ⟨by simpa using hne, ne_of_gt hpos⟩

theorem ccl_median (pd : List (String × Option ℚ))
    (hW : propWeightedContribs pd = []) (hl : propSuppliedLines pd ≠ []) :
    PlayerPropsModel.calculate_consensus_line pd =
      .ok (PlayerPropsModel.median (propSuppliedLines pd)) := by
  simp only [PlayerPropsModel.calculate_consensus_line, weighted_eq_contribs pd, hW]
  simp only [List.map_nil, List.sum_nil, or_true, eq_self_iff_true, true_or, if_true]
  simp only [propSuppliedLines] at hl
  rw [if_pos hl]
  rfl

theorem ccl_error (pd : List (String × Option ℚ))
    (hl : propSuppliedLines pd = []) :
    PlayerPropsModel.calculate_consensus_line pd =
      .error (.valueError "No valid lines found for consensus calculation") := by
  have hW := lines_nil_contribs pd hl
  simp only [PlayerPropsModel.calculate_consensus_line, weighted_eq_contribs pd, hW]
  rw [if_pos (Or.inl (by simp))]
  simp only [propSuppliedLines] at hl
  rw [if_neg (by simpa using hl)]

/-- C9: the prop consensus line is the weighted average of the lines of books
with strictly positive prop weight that supply a line; with no such weighted
contributor it is the unweighted median of all supplied lines; it fails
exactly when no book supplies a line at all. -/
theorem claim_C9_consensus_line (pd : List (String × Option ℚ)) :
    (propWeightedContribs pd ≠ [] →
      PlayerPropsModel.calculate_consensus_line pd =
        .ok (((propWeightedContribs pd).map (fun e => e.1 * e.2)).sum /
          ((propWeightedContribs pd).map (fun e => e.2)).sum)) ∧
    (propWeightedContribs pd = [] → propSuppliedLines pd ≠ [] →
      PlayerPropsModel.calculate_consensus_line pd =
        .ok (PlayerPropsModel.median (propSuppliedLines pd))) ∧
    ((∃ e, PlayerPropsModel.calculate_consensus_line pd = .error e) ↔
      propSuppliedLines pd = []) := by
  refine ⟨ccl_weighted pd, ccl_median pd, ?_, fun hl => ⟨_, ccl_error pd hl⟩⟩
  rintro ⟨e, he⟩
  by_cases hl : propSuppliedLines pd = []
  · exact hl
  · exfalso
    by_cases hW : propWeightedContribs pd = []
    · rw [ccl_median pd hW hl] at he
      cases he
    · rw [ccl_weighted pd hW] at he
      cases he

/-- Witness for C9: a single book outside the prop-weight table supplying a
line triggers the median fallback. -/
theorem claim_C9_witness :
    PlayerPropsModel.calculate_consensus_line [("Bovada", some 250.5)] =
      .ok (PlayerPropsModel.median [250.5]) :=
  (claim_C9_consensus_line [("Bovada", some 250.5)]).2.1 (by decide) (by decide)

theorem pyDiv_err (a b : ℚ) (e : PyErr) (h : pyDiv a b = .error e) :
    e = .zeroDivisionError := by
  unfold pyDiv at h
  split_ifs at h ; cases h ; rfl

theorem cfp_ne_nvd (l : List SharpEdge.MarketProb) (e : PyErr)
    (h : SharpEdge.calculate_fair_probability l = .error e) :
    e ≠ .valueError "No valid odds data found" := by
  simp only [SharpEdge.calculate_fair_probability] at h
  split_ifs at h <;> cases h <;> decide

theorem ev_ne_nvd (o p : ℚ) (e : PyErr) (h : SharpEdge.calculate_ev o p = .error e) :
    e ≠ .valueError "No valid odds data found" := by
  unfold SharpEdge.calculate_ev at h
  split_ifs at h <;> cases h <;> decide

theorem d2a_ne_nvd (d : ℚ) (e : PyErr) (h : SharpEdge.decimal_to_american d = .error e) :
    e ≠ .valueError "No valid odds data found" := by
  by_cases h1 : d < 1
  · simp only [SharpEdge.decimal_to_american, if_pos h1] at h
    cases h
    decide
  · by_cases h2 : 2 ≤ d
    · simp only [SharpEdge.decimal_to_american, if_neg h1, if_pos h2] at h
      cases h
    · by_cases hz : d - 1 = 0
      · simp only [SharpEdge.decimal_to_american, if_neg h1, if_neg h2, pyDiv, if_pos hz,
          error_bind] at h
        cases h
        decide
      · simp only [SharpEdge.decimal_to_american, if_neg h1, if_neg h2, pyDiv, if_neg hz,
          ok_bind] at h
        cases h

theorem cce_ne_nvd (o p f : ℚ) (e : PyErr)
    (h : SharpEdge.calculate_comprehensive_ev o p f = .error e) :
    e ≠ .valueError "No valid odds data found" := by
  unfold SharpEdge.calculate_comprehensive_ev at h
  rcases (bind_eq_error _ _ _).mp h with h1 | ⟨x, _, h2⟩
  · exact ev_ne_nvd _ _ _ h1
  · rcases (bind_eq_error _ _ _).mp h2 with h3 | ⟨y, _, h4⟩
    · rw [pyDiv_err _ _ _ h3]
      decide
    · rcases (bind_eq_error _ _ _).mp h4 with h5 | ⟨z, _, h6⟩
      · rw [pyDiv_err _ _ _ h5]
        decide
      · cases h6

theorem evopt_ne_nvd (off : Option ℚ) (p f : ℚ) (e : PyErr)
    (h : SharpEdge.evAnalysisOpt off p f = .error e) :
    e ≠ .valueError "No valid odds data found" := by
  cases off with
  | none => cases h
  | some o =>
    by_cases ho : o ≠ 0
    · simp only [SharpEdge.evAnalysisOpt, if_pos ho] at h
      rcases (bind_eq_error _ _ _).mp h with h1 | ⟨w, _, h2⟩
      · exact cce_ne_nvd _ _ _ _ h1
      · cases h2
    · simp only [SharpEdge.evAnalysisOpt, if_neg ho] at h
      cases h

theorem consensusFrom_ne_nvd (be ee : List SharpEdge.Contributor) (off : Option ℚ)
    (hne : (be ++ ee).map (fun c => c.1) ≠ []) :
    SharpEdge.consensusFrom be ee off ≠ .error (.valueError "No valid odds data found") := by
  intro h
  unfold SharpEdge.consensusFrom at h
  rw [if_neg hne] at h
  rcases (bind_eq_error _ _ _).mp h with h1 | ⟨fp, _, h2⟩
  · exact cfp_ne_nvd _ _ h1 rfl
  · rcases (bind_eq_error _ _ _).mp h2 with h3 | ⟨fod, _, h4⟩
    · exact absurd (pyDiv_err _ _ _ h3) (by decide)
    · rcases (bind_eq_error _ _ _).mp h4 with h5 | ⟨foa, _, h6⟩
      · exact d2a_ne_nvd _ _ h5 rfl
      · rcases (bind_eq_error _ _ _).mp h6 with h7 | ⟨ev, _, h8⟩
        · exact evopt_ne_nvd _ _ _ _ h7 rfl
        · cases h8

/-- C8: a devig failure on one book's quote only skips that book — inserting
a book whose quote fails to devig anywhere in the odds mapping leaves the
whole result unchanged — and the computation fails with the
"No valid odds data found" error exactly when zero contributors remain after
filtering. -/
theorem claim_C8_skip_and_no_data (cfg : SharpEdge.Config)
    (pre post : List (String × List ℚ)) (book : String) (q : List ℚ) (e : PyErr)
    (hq : SharpEdge.devig_multiplicative q = .error e)
    (ex : Option (List (String × SharpEdge.ExchangeData))) (off : Option ℚ) :
    SharpEdge.get_fair_odds_and_ev cfg (pre ++ (book, q) :: post) ex off =
      SharpEdge.get_fair_odds_and_ev cfg (pre ++ post) ex off ∧
    ∀ od, (SharpEdge.get_fair_odds_and_ev cfg od ex off =
        .error (.valueError "No valid odds data found") ↔
      SharpEdge.consensusContributors cfg od ex = []) := by
  constructor
  · have hbe : SharpEdge.bookEntry cfg.weights book q = none := by
      unfold SharpEdge.bookEntry
      cases hw : cfg.weights.lookup book with
      | none => rfl
      | some w => simp [hq, error_bind]
    have hlist : SharpEdge.bookEntries cfg.weights (pre ++ (book, q) :: post) =
        SharpEdge.bookEntries cfg.weights (pre ++ post) := by
      simp [SharpEdge.bookEntries, List.filterMap_append, List.filterMap_cons, hbe]
    unfold SharpEdge.get_fair_odds_and_ev
    rw [hlist]
  · intro od
    constructor
    · intro h
      by_contra hc
      exact consensusFrom_ne_nvd _ _ off hc h
    · intro h
      have h2 : ((SharpEdge.bookEntries cfg.weights od ++
          SharpEdge.exchangeEntries cfg.exchange_weights cfg.liquidity_threshold ex).map
            (fun c => c.1)) = [] := h
      unfold SharpEdge.get_fair_odds_and_ev SharpEdge.consensusFrom
      rw [if_pos h2]

/-- Witness for C8: a malformed one-element quote is skipped and the result
matches the computation without it. -/
theorem claim_C8_witness :
    SharpEdge.get_fair_odds_and_ev (SharpEdge.Config.mk [("Pinnacle", 1)] [] 1000)
        ([("Pinnacle", [1.91, 1.91])] ++ ("BadBook", [3]) :: []) none none =
      SharpEdge.get_fair_odds_and_ev (SharpEdge.Config.mk [("Pinnacle", 1)] [] 1000)
        ([("Pinnacle", [1.91, 1.91])] ++ []) none none :=
  (claim_C8_skip_and_no_data (SharpEdge.Config.mk [("Pinnacle", 1)] [] 1000)
    [("Pinnacle", [1.91, 1.91])] [] "BadBook" [3]
    (.valueError "Multiplicative devig requires exactly 2 odds (for a two-way market)")
    (by decide) none none).1
